import Mathlib

/-!
Verification development for the SADGP shadow-AI governance proxy.

The definitions below are a shallow embedding of the Python sources under
`src/proxy/`:

* `src/proxy/dlp_engine.py`   — `DLPEngine` (regex scanning, entropy scan, scoring)
* `src/proxy/redactor.py`     — `Redactor` (redact / mask / rewrite / block)
* `src/proxy/policy_engine.py`— `PolicyEngine.evaluate`
* `src/proxy/fingerprinter.py`— `Fingerprinter` (rule catalog, scoring, selection)
* `src/proxy/main.py`         — `ProxyOrchestrator.handle`

Modelling conventions:
* Python floats are modelled as exact rationals (`ℚ`) except in the
  fingerprinter's score accumulation, where IEEE-754 double addition is
  modelled exactly on scaled integers because the behaviour of the
  `score >= 0.45` threshold depends on double rounding.
* Python's `re` patterns are embedded as hand-written matchers that follow
  the leftmost/greedy backtracking semantics of each concrete pattern of the
  fixed catalogs.  `\w`, `\b`, `\s` and `str.lower` are modelled over ASCII
  (all catalog patterns and all concrete inputs used here are ASCII).
* Python's salted `hash` (used only to build mask tokens) and `hashlib.sha256`
  (used only for the audit digest) are passed in as function parameters.
-/

/-! ## Character classes (ASCII models of the `re` classes used) -/

/-- ASCII decimal digit, the model of `\d` for the catalog patterns. -/
def isDigitC (c : Char) : Bool := '0' ≤ c && c ≤ '9'

/-- ASCII letter. -/
def isAlphaC (c : Char) : Bool := ('a' ≤ c && c ≤ 'z') || ('A' ≤ c && c ≤ 'Z')

/-- ASCII letter or digit. -/
def isAlnumC (c : Char) : Bool := isAlphaC c || isDigitC c

/-- Model of `\w`: letter, digit or underscore. -/
def isWordC (c : Char) : Bool := isAlnumC c || c == '_'

/-- Model of `\s`: the ASCII whitespace characters recognised by Python `re`. -/
def isSpaceC (c : Char) : Bool :=
  c == ' ' || c == '\t' || c == '\n' || c == '\r' || c == '\x0b' || c == '\x0c'

/-- Separator class `[\s-]` of the phone pattern. -/
def isSepC (c : Char) : Bool := isSpaceC c || c == '-'

/-- Local-part class `[A-Z0-9._%+-]` (case-insensitive) of the email pattern. -/
def isLocalC (c : Char) : Bool :=
  isAlnumC c || c == '.' || c == '_' || c == '%' || c == '+' || c == '-'

/-- Domain class `[A-Z0-9.-]` (case-insensitive) of the email pattern. -/
def isDomC (c : Char) : Bool := isAlnumC c || c == '.' || c == '-'

/-- Token class `[A-Za-z0-9\-_]` shared by the api_key, jwt and entropy patterns. -/
def isTokC (c : Char) : Bool := isAlnumC c || c == '-' || c == '_'

/-! ## Basic string/list helpers -/

/-- Character at index `i`, if in range. -/
def charAt (s : List Char) (i : ℕ) : Option Char := s.get? i

/-- Length of the maximal leading run of characters satisfying `p`. -/
def runLen (p : Char → Bool) : List Char → ℕ
  | [] => 0
  | c :: r => if p c then runLen p r + 1 else 0

/-- `needle` occurs literally at the head of the list. -/
def prefixAt : List Char → List Char → Bool
  | [], _ => true
  | _ :: _, [] => false
  | a :: as, b :: bs => a == b && prefixAt as bs

/-- Python's substring test `needle in hay`. -/
def containsSub (needle : List Char) : List Char → Bool
  | [] => prefixAt needle []
  | x :: r => prefixAt needle (x :: r) || containsSub needle r

/-- Index of the first occurrence of `needle` (Python `str.find`); total, only
used on needles that do occur. -/
def findSubGo (needle : List Char) : List Char → ℕ
  | [] => 0
  | x :: r => if prefixAt needle (x :: r) then 0 else 1 + findSubGo needle r

/-- ASCII `str.lower`. -/
def strLower (s : String) : String := ⟨s.data.map Char.toLower⟩

/-- Substring `s[i:e]` as a string. -/
def sliceStr (s : List Char) (i e : ℕ) : String := ⟨(s.drop i).take (e - i)⟩

/-- There are at least `g` consecutive characters of class `p` starting at `i`. -/
def classRunAt (p : Char → Bool) (s : List Char) (i g : ℕ) : Bool :=
  g ≤ runLen p (s.drop i)

/-- The character at `i` exists and is a word character. -/
def isWordAt (s : List Char) (i : ℕ) : Bool := (charAt s i).any isWordC

/-- Model of the `\b` assertion between positions `i-1` and `i`. -/
def boundaryAt (s : List Char) (i : ℕ) : Bool :=
  (if i = 0 then false else isWordAt s (i - 1)) != isWordAt s i

/-- Consume one optional character of class `p` (a forced `X?` item: for every
pattern below, skipping a present class character makes the required next item
fail, so the greedy engine's behaviour is exactly "consume iff present"). -/
def optClass (p : Char → Bool) (s : List Char) (i : ℕ) : ℕ :=
  if (charAt s i).any p then i + 1 else i

/-! ## The six DLP regex matchers (`PII_REGEXES` / `SECRET_REGEXES`)

Each `match...At s i` returns the end offset of the match the Python regex
engine produces when attempting the pattern at position `i` of `s`, or `none`.
-/

/-- Helper for the email pattern: given the start `dStart` of the maximal
domain-class run, try splits `k = n, n-1, …, 1` (the greedy order of
`[A-Z0-9.-]+`) looking for `\.` followed by at least two letters; the final
`[A-Z]{2,}` is greedy, so the match ends after the maximal letter run. -/
def emailSplit (s : List Char) (dStart : ℕ) : ℕ → Option ℕ
  | 0 => none
  | n + 1 =>
    if charAt s (dStart + n + 1) == some '.' && classRunAt isAlphaC s (dStart + n + 2) 2 then
      some (dStart + n + 2 + runLen isAlphaC (s.drop (dStart + n + 2)))
    else emailSplit s dStart n

/-- `email`: `[A-Z0-9._%+-]+@[A-Z0-9.-]+\.[A-Z]{2,}` (IGNORECASE).  The local
`+` is forced maximal ('@' is not a local character), then the greedy domain
run backtracks to the last viable `\.`. -/
def matchEmailAt (s : List Char) (i : ℕ) : Option ℕ :=
  let L := runLen isLocalC (s.drop i)
  if L = 0 then none
  else if charAt s (i + L) == some '@' then
    let dStart := i + L + 1
    let D := runLen isDomC (s.drop dStart)
    emailSplit s dStart (D - 1)
  else none

/-- Tail of the phone pattern after `\+?` with a fixed choice `d1 ∈ {2,1}` for
the greedy `\d{1,2}`: `[\s-]?\(?\d{3}\)?[\s-]?\d{3}[\s-]?\d{4}\b`. -/
def phoneTail (s : List Char) (d1 j0 : ℕ) : Option ℕ :=
  if classRunAt isDigitC s j0 d1 then
    let j1 := optClass isSepC s (j0 + d1)
    let j2 := optClass (· == '(') s j1
    if classRunAt isDigitC s j2 3 then
      let j3 := optClass (· == ')') s (j2 + 3)
      let j4 := optClass isSepC s j3
      if classRunAt isDigitC s j4 3 then
        let j5 := optClass isSepC s (j4 + 3)
        if classRunAt isDigitC s j5 4 && !isWordAt s (j5 + 4) then some (j5 + 4) else none
      else none
    else none
  else none

/-- `phone`: `\b\+?\d{1,2}[\s-]?\(?\d{3}\)?[\s-]?\d{3}[\s-]?\d{4}\b`.  The only
genuine backtracking point is `\d{1,2}` (try two digits, then one). -/
def matchPhoneAt (s : List Char) (i : ℕ) : Option ℕ :=
  if boundaryAt s i then
    let j0 := if charAt s i == some '+' then i + 1 else i
    match phoneTail s 2 j0 with
    | some e => some e
    | none => phoneTail s 1 j0
  else none

/-- Shared shape of the medicare (`g = 4`) and tfn (`g = 3`) patterns:
`\b\d{g}\s?\d{g}\s?\d{g}\b`; each `\s?` is forced. -/
def matchGroupsAt (g : ℕ) (s : List Char) (i : ℕ) : Option ℕ :=
  if boundaryAt s i && classRunAt isDigitC s i g then
    let j1 := optClass isSpaceC s (i + g)
    if classRunAt isDigitC s j1 g then
      let j2 := optClass isSpaceC s (j1 + g)
      if classRunAt isDigitC s j2 g then
        if !isWordAt s (j2 + g) then some (j2 + g) else none
      else none
    else none
  else none

/-- `medicare`: `\b\d{4}\s?\d{4}\s?\d{4}\b`. -/
def matchMedicareAt : List Char → ℕ → Option ℕ := matchGroupsAt 4

/-- `tfn`: `\b\d{3}\s?\d{3}\s?\d{3}\b`. -/
def matchTfnAt : List Char → ℕ → Option ℕ := matchGroupsAt 3

/-- Case-insensitive keyword alternation `(api|token|secret|key)` of the
api_key pattern; the four literals start with distinct letters, so at most one
alternative can match at a given position. Returns the end of the keyword. -/
def matchKw (s : List Char) (i : ℕ) : Option ℕ :=
  if ((s.drop i).take 3).map Char.toLower == "api".data then some (i + 3)
  else if ((s.drop i).take 5).map Char.toLower == "token".data then some (i + 5)
  else if ((s.drop i).take 6).map Char.toLower == "secret".data then some (i + 6)
  else if ((s.drop i).take 3).map Char.toLower == "key".data then some (i + 3)
  else none

/-- `api_key`: `(?i)(api|token|secret|key)[=:]\s*['\"]?[A-Za-z0-9-_]{12,}`.
`\s*` and the optional quote are forced; the final `{12,}` is greedy with
nothing after it, so the match ends after the maximal token run. -/
def matchApiKeyAt (s : List Char) (i : ℕ) : Option ℕ :=
  match matchKw s i with
  | none => none
  | some j =>
    if charAt s j == some '=' || charAt s j == some ':' then
      let j1 := j + 1 + runLen isSpaceC (s.drop (j + 1))
      let j2 := if charAt s j1 == some '\x27' || charAt s j1 == some '"' then j1 + 1 else j1
      let R := runLen isTokC (s.drop j2)
      if 12 ≤ R then some (j2 + R) else none
    else none

/-- `jwt`: `eyJ[A-Za-z0-9-_]+\.[A-Za-z0-9-_]+\.[A-Za-z0-9-_]+`; each `+` is
forced maximal because `.` is not a token character. -/
def matchJwtAt (s : List Char) (i : ℕ) : Option ℕ :=
  if (s.drop i).take 3 == "eyJ".data then
    let r1 := runLen isTokC (s.drop (i + 3))
    if 1 ≤ r1 && charAt s (i + 3 + r1) == some '.' then
      let p2 := i + 3 + r1 + 1
      let r2 := runLen isTokC (s.drop p2)
      if 1 ≤ r2 && charAt s (p2 + r2) == some '.' then
        let p3 := p2 + r2 + 1
        let r3 := runLen isTokC (s.drop p3)
        if 1 ≤ r3 then some (p3 + r3) else none
      else none
    else none
  else none

/-- Matcher for the entropy tokenizer `[A-Za-z0-9\-_]{8,}` (greedy: the match
at `i` is the maximal token run from `i`, provided it has length ≥ 8). -/
def matchRun8At (s : List Char) (i : ℕ) : Option ℕ :=
  let r := runLen isTokC (s.drop i)
  if 8 ≤ r then some (i + r) else none

/-! ## `re.finditer` -/

/-- Worker for `finditer`: scan positions left to right from `pos`; after a
match `[pos, e)` resume at `e` (Python advances by one on an empty match; none
of the catalog patterns can match the empty string, the `max` keeps the
definition total).  `fuel` only bounds the recursion; `s.length + 1 - pos`
steps always suffice since the position strictly increases. -/
def fiAux (m : List Char → ℕ → Option ℕ) (s : List Char) : ℕ → ℕ → List (ℕ × ℕ)
  | _, 0 => []
  | pos, fuel + 1 =>
    if pos ≤ s.length then
      match m s pos with
      | some e => (pos, e) :: fiAux m s (max e (pos + 1)) fuel
      | none => fiAux m s (pos + 1) fuel
    else []

/-- `re.finditer`: the non-overlapping, leftmost matches of `m` in `s`. -/
def finditer (m : List Char → ℕ → Option ℕ) (s : List Char) : List (ℕ × ℕ) :=
  fiAux m s 0 (s.length + 1)

/-! ## DLP engine (`src/proxy/dlp_engine.py`) -/

/-- `SensitiveSegment` (the source field `end` is a Lean keyword, renamed
`endPos`). -/
structure SensitiveSegment where
  label : String
  value : String
  start : ℕ
  endPos : ℕ
deriving DecidableEq

/-- `DLPResult`. -/
structure DLPResult where
  pii_score : ℚ
  secret_leakage_score : ℚ
  sensitive_segments : List SensitiveSegment
  raw_prompt : Option String
deriving DecidableEq

/-- All matches of one labelled catalog pattern, as segments (`_scan_regexes`
inner loop: label, matched text, exact offsets). -/
def regexHits (label : String) (m : List Char → ℕ → Option ℕ) (text : String) :
    List SensitiveSegment :=
  (finditer m text.data).map fun p => ⟨label, sliceStr text.data p.1 p.2, p.1, p.2⟩

/-- `DLPEngine._scan_regexes`: PII catalog then secret catalog, in the
insertion order of the two pattern dictionaries. -/
def scanRegexes (text : String) : List SensitiveSegment :=
  regexHits "email" matchEmailAt text ++ regexHits "phone" matchPhoneAt text ++
  regexHits "medicare" matchMedicareAt text ++ regexHits "tfn" matchTfnAt text ++
  regexHits "api_key" matchApiKeyAt text ++ regexHits "jwt" matchJwtAt text

/-- Product `Π_c count(c)^(2·count(c))` over the distinct characters of `t`. -/
def entWeight (t : List Char) : ℕ :=
  (t.dedup.map fun c => (t.count c) ^ (2 * t.count c)).prod

/-- Exact model of `DLPEngine._entropy(t) >= 3.5`: for nonempty `t` with
`n = t.length`, the Shannon entropy `log2 n - (1/n)·Σ_c count(c)·log2 count(c)`
is `≥ 7/2` iff `2^(7n) · Π_c count(c)^(2·count(c)) ≤ n^(2n)` (multiply by `n`,
exponentiate base 2, and square, all monotone).  The source compares binary64
`math.log2` values; the exact comparison is used here. -/
def highEntropyTok (t : List Char) : Bool :=
  decide (2 ^ (7 * t.length) * entWeight t ≤ t.length ^ (2 * t.length))

/-- `DLPEngine._scan_entropy`: tokenize maximal `[A-Za-z0-9\-_]{8,}` runs; flag
tokens with entropy ≥ 3.5 and length ≥ 16; the reported offsets use
`text.find(token)`, i.e. the first occurrence of the token text. -/
def scanEntropy (text : String) : List SensitiveSegment :=
  (finditer matchRun8At text.data).filterMap fun p =>
    let tok := (text.data.drop p.1).take (p.2 - p.1)
    if highEntropyTok tok && 16 ≤ tok.length then
      let st := findSubGo tok text.data
      some ⟨"high_entropy", ⟨tok⟩, st, st + tok.length⟩
    else none

/-- Keys of `PII_REGEXES`. -/
def piiRegexLabels : List String := ["email", "phone", "medicare", "tfn"]

/-- The spaCy entity labels kept by `_scan_spacy` / counted as PII. -/
def piiEntityLabels : List String := ["PERSON", "GPE", "ORG", "NORP", "LOC"]

/-- Keys of `SECRET_REGEXES`. -/
def secretRegexLabels : List String := ["api_key", "jwt"]

/-- PII-class test of `analyze`: `h.label in PII_REGEXES or h.label in {...}`. -/
def isPiiHit (h : SensitiveSegment) : Bool :=
  piiRegexLabels.contains h.label || piiEntityLabels.contains h.label

/-- Secret-class test of `analyze`: `h.label in SECRET_REGEXES or h.label == "high_entropy"`. -/
def isSecretHit (h : SensitiveSegment) : Bool :=
  secretRegexLabels.contains h.label || h.label == "high_entropy"

/-- Python `round(q, 2)`: to two decimal places.  On every value `analyze`
produces, `q * 100` is an integer, so the half-up floor formula used here
agrees with Python's bankers rounding (both are the identity there). -/
def round2 (q : ℚ) : ℚ := (⌊q * 100 + 1 / 2⌋ : ℚ) / 100

/-- `DLPEngine.analyze`.  The optional spaCy collaborator (disabled in the
orchestrator, `enable_spacy=False`) is a parameter returning its entity
segments; the non-string coercion branch is outside the Lean input type. -/
def analyze (spacyHits : String → List SensitiveSegment) (prompt : String) : DLPResult :=
  let regexH := scanRegexes prompt
  let entropyH := scanEntropy prompt
  let spacyH := spacyHits prompt
  let allHits := regexH ++ entropyH ++ spacyH
  let piiHits := allHits.filter isPiiHit
  let secretHits := allHits.filter isSecretHit
  let piiScore : ℚ := min 1 ((piiHits.length : ℚ) * 0.2)
  let secretScore : ℚ :=
    min 1 ((secretHits.length : ℚ) * 0.25 +
      if secretHits.any (fun h => h.label == "high_entropy") then (0.3 : ℚ) else 0)
  ⟨round2 piiScore, round2 secretScore, allHits, some prompt⟩

/-! ## Redactor (`src/proxy/redactor.py`) -/

/-- `RedactionOutcome`. -/
structure RedactionOutcome where
  action : String
  redacted_text : Option String
  blocked : Bool
  notes : List String
deriving DecidableEq

/-- `REDACTION_TOKENS` (note the keys: the category names `"pii"`/`"secret"`
and the label `"high_entropy"`). -/
def REDACTION_TOKENS : List (String × String) :=
  [("pii", "[REDACTED—PII]"), ("secret", "[REDACTED—SECRET]"),
   ("high_entropy", "[REDACTED—SECRET]")]

/-- `REDACTION_TOKENS.get(label, "[REDACTED]")`. -/
def tokenFor (label : String) : String := (REDACTION_TOKENS.lookup label).getD "[REDACTED]"

/-- Stable insertion of a segment into a start-descending list: placed after
every element with an equal or larger start. -/
def insertDesc (x : SensitiveSegment) : List SensitiveSegment → List SensitiveSegment
  | [] => [x]
  | y :: ys => if y.start < x.start then x :: y :: ys else y :: insertDesc x ys

/-- `sorted(segments, key=lambda s: s.start, reverse=True)` (stable). -/
def sortByStartDesc (l : List SensitiveSegment) : List SensitiveSegment :=
  l.foldl (fun acc x => insertDesc x acc) []

/-- One substitution `cur[:start] + tok + cur[end:]`. -/
def replaceSeg (cur : List Char) (seg : SensitiveSegment) (tok : String) : List Char :=
  cur.take seg.start ++ tok.data ++ cur.drop seg.endPos

/-- `Redactor._basic_redact`: substitute every segment in descending-start
order with its label's token; `blocked = pii_score >= 0.8 or secret >= 0.8`. -/
def basicRedact (prompt : String) (dlp : DLPResult) : RedactionOutcome :=
  let redacted : String :=
    ⟨(sortByStartDesc dlp.sensitive_segments).foldl
      (fun r seg => replaceSeg r seg (tokenFor seg.label)) prompt.data⟩
  let blocked : Bool :=
    decide ((0.8 : ℚ) ≤ dlp.pii_score) || decide ((0.8 : ℚ) ≤ dlp.secret_leakage_score)
  let notes : List String :=
    if blocked then ["blocked due to high risk"]
    else if redacted != prompt then ["redaction applied"]
    else ["no redaction needed"]
  ⟨"redact", some redacted, blocked, notes⟩

/-- Mask token `f"[MASK:{abs(hash(value)) % 10_000_000}]"`; Python's salted
string `hash` is passed in as `hv` (already taken `abs`, hence `ℕ`). -/
def maskHash (hv : String → ℕ) (value : String) : String :=
  "[MASK:" ++ toString (hv value % 10000000) ++ "]"

/-- `Redactor._mask`. -/
def maskRedact (hv : String → ℕ) (prompt : String) (dlp : DLPResult) : RedactionOutcome :=
  let masked : String :=
    ⟨(sortByStartDesc dlp.sensitive_segments).foldl
      (fun r seg => replaceSeg r seg (maskHash hv seg.value)) prompt.data⟩
  ⟨"mask", some masked, false, ["masking applied"]⟩

/-- `Redactor.redact`: dispatch on the mode; every mode other than
block/mask/rewrite falls through to `_basic_redact`. -/
def redact (hv : String → ℕ) (prompt : String) (dlp : DLPResult) (mode : String) :
    RedactionOutcome :=
  if mode == "block" then ⟨"block", none, true, ["blocked by policy"]⟩
  else if mode == "mask" then maskRedact hv prompt dlp
  else if mode == "rewrite" then
    ⟨"rewrite", some "This prompt was rewritten to safe mode. Original content withheld.",
      false, ["safe-mode rewrite"]⟩
  else basicRedact prompt dlp

/-! ## Policy engine (`src/proxy/policy_engine.py`) -/

/-- `FingerprintResult`.  `confidence56` carries the raw IEEE score scaled by
`2^56` (the source stores `round(score, 2)` of the same double; no consumer
reads it). -/
structure FingerprintResult where
  service_name : String
  model_type : String
  api_version : String
  risk_level : String
  confidence56 : ℕ
  matched_on : List String
deriving DecidableEq

/-- `PolicyDecision` (`parameters` as an association list). -/
structure PolicyDecision where
  action : String
  reasons : List String
  policy_matches : List String
  parameters : List (String × String)
deriving DecidableEq

/-- `PolicyEngine._severity`. -/
def severity : List String := ["allow", "redact", "mask", "rewrite", "block"]

/-- `self._severity.index(a)` (only ever called on members of the list). -/
def sevIdx (a : String) : ℕ := severity.indexOf a

/-- `PolicyEngine._bump_action`: keep the higher-severity action. -/
def bumpAction (current candidate : String) : String :=
  if sevIdx current < sevIdx candidate then candidate else current

/-- Condition of `RULE_BLOCK_EXTERNAL`:
`fp and self.enforce_external_block and fp.service_name not in self.whitelist`. -/
def extCond (wl : List String) (enforce : Bool) (fp : Option FingerprintResult) : Bool :=
  match fp with
  | some f => enforce && !(wl.contains f.service_name)
  | none => false

/-- Condition of `RULE_SAFE_MODE_REWRITE`:
`dlp.raw_prompt and "ignore previous" in dlp.raw_prompt.lower()` (an absent or
empty prompt is falsy; the empty string contains no occurrence anyway). -/
def jailCond (dlp : DLPResult) : Bool :=
  match dlp.raw_prompt with
  | some p => containsSub "ignore previous".data (strLower p).data
  | none => false

/-- Intermediate mutable state of `PolicyEngine.evaluate`. -/
structure PolicyAcc where
  matchList : List String  -- source variable `matches` (a Lean keyword)
  reasons : List String
  action : String
  params : List (String × String)
deriving DecidableEq

/-- `PolicyEngine.evaluate`: the five rules applied in source order, then the
no-match reason. -/
def evaluate (wl : List String) (enforce : Bool) (fp : Option FingerprintResult)
    (dlp : DLPResult) : PolicyDecision :=
  let a0 : PolicyAcc := ⟨[], [], "allow", []⟩
  let a1 := if (0.2 : ℚ) ≤ dlp.pii_score then
      PolicyAcc.mk (a0.matchList ++ ["RULE_NO_PII"]) (a0.reasons ++ ["PII detected"])
        (bumpAction a0.action "redact") a0.params
    else a0
  let a2 := if (0.2 : ℚ) ≤ dlp.secret_leakage_score then
      PolicyAcc.mk (a1.matchList ++ ["RULE_REDACT_SECRETS"]) (a1.reasons ++ ["Secrets detected"])
        (bumpAction a1.action "redact") a1.params
    else a1
  let a3 := if (0.4 : ℚ) ≤ dlp.secret_leakage_score then
      PolicyAcc.mk (a2.matchList ++ ["RULE_BLOCK_SECRETS"]) (a2.reasons ++ ["High secret risk"])
        (bumpAction a2.action "block") a2.params
    else a2
  let a4 := if extCond wl enforce fp then
      PolicyAcc.mk (a3.matchList ++ ["RULE_BLOCK_EXTERNAL"])
        (a3.reasons ++
          ["External LLM " ++ ((fp.map (fun f => f.service_name)).getD "") ++ " not whitelisted"])
        (bumpAction a3.action "block") a3.params
    else a3
  let a5 := if jailCond dlp then
      PolicyAcc.mk (a4.matchList ++ ["RULE_SAFE_MODE_REWRITE"])
        (a4.reasons ++ ["Jailbreak-like content"]) (bumpAction a4.action "rewrite")
        (a4.params ++ [("rewrite", "safe-mode")])
    else a4
  let finalReasons := if a5.matchList.isEmpty then a5.reasons ++ ["No policies triggered"]
    else a5.reasons
  ⟨a5.action, finalReasons, a5.matchList, a5.params⟩

/-! ## Fingerprinter (`src/proxy/fingerprinter.py`)

The score is a Python float built by `score += 0.5 / 0.3 / 0.15 / 0.05` and
compared with `>= 0.45`.  Doubles are modelled exactly as naturals scaled by
`2^56` (every constant and every reachable intermediate sum is an integer
multiple of `2^-56`), and each `+=` is one correctly-rounded IEEE-754 binary64
addition (`fadd56`).
-/

/-- `RequestContext`. -/
structure RequestContext where
  host : String
  path : String
  method : String
  headers : List (String × String)
  body : Option String := none
  tls_ja3 : Option String := none
  sni : Option String := none
deriving DecidableEq

/-- Path patterns of the catalog: every entry is either a literal or of the
shape `A.*B` (these are the only regex forms `_build_rules` compiles). -/
inductive PathPat where
  | lit (s : String)
  | gap (a b : String)
deriving DecidableEq

/-- A compiled fingerprint rule (`_build_rules` dict). -/
structure FPRule where
  service_name : String
  domains : List String
  paths : List PathPat
  headers : List String
  model_type : String
  api_version : String
  risk_level : String
deriving DecidableEq

/-- Floor of `log2` (fuel-based so that kernel reduction works; the argument
halves each step, so `f` iterations handle every value below `2^(f+1)`). -/
def log2Fuel : ℕ → ℕ → ℕ
  | 0, _ => 0
  | f + 1, n => if n < 2 then 0 else log2Fuel f (n / 2) + 1

/-- `natLog2 n = ⌊log2 n⌋` for `1 ≤ n < 2^64` (every score handled in this
file is below `2^58`). -/
def natLog2 (n : ℕ) : ℕ := log2Fuel 64 n

/-- Round a nonnegative multiple of `2^-56` (given as `s · 2^-56`) to the
nearest IEEE-754 binary64 (53-bit mantissa, round half to even).  Exact for
this file's uses: every input is `≥ 2^51 · 2^-56` or exactly representable. -/
def roundDouble56 (s : ℕ) : ℕ :=
  let L := natLog2 s
  if L ≤ 52 then s
  else
    let sh := L - 52
    let q := s / 2 ^ sh
    let r := s % 2 ^ sh
    let half := 2 ^ (sh - 1)
    let q2 := if half < r ∨ (r = half ∧ q % 2 = 1) then q + 1 else q
    q2 * 2 ^ sh

/-- One binary64 addition of two exactly-represented doubles. -/
def fadd56 (a b : ℕ) : ℕ := roundDouble56 (a + b)

/-- The double `0.5`, scaled by `2^56`. -/
def d0_5 : ℕ := 36028797018963968

/-- The double nearest `0.3` (`5404319552844595 · 2^-54`), scaled by `2^56`. -/
def d0_3 : ℕ := 21617278211378380

/-- The double nearest `0.15` (`5404319552844595 · 2^-55`), scaled by `2^56`. -/
def d0_15 : ℕ := 10808639105689190

/-- The double nearest `0.05` (`7205759403792794 · 2^-57`), scaled by `2^56`. -/
def d0_05 : ℕ := 3602879701896397

/-- The double nearest `0.45` (`8106479329266893 · 2^-54`), scaled by `2^56`. -/
def d0_45 : ℕ := 32425917317067572

/-- The float accumulation of `Fingerprinter.fingerprint` for one rule, from
the four signal tests, in source order (domain, path, header, tls). -/
def scoreOf (domainHit pathHit headerHit tlsHit : Bool) : ℕ :=
  let s1 := if domainHit then fadd56 0 d0_5 else 0
  let s2 := if pathHit then fadd56 s1 d0_3 else s1
  let s3 := if headerHit then fadd56 s2 d0_15 else s2
  let s4 := if tlsHit then fadd56 s3 d0_05 else s3
  s4

/-- Anchored-suffix matcher: `s` is a newline-free gap followed by exactly
`suf` (the `.*suf$` part of a converted wildcard; `.` does not match a
newline). -/
def suffixGap (suf : List Char) : List Char → Bool
  | [] => suf == ([] : List Char)
  | x :: r => suf == x :: r || (x != '\n' && suffixGap suf r)

/-- Split a list at every occurrence of `c`. -/
def splitOnChar (c : Char) : List Char → List (List Char)
  | [] => [[]]
  | x :: r =>
    if x == c then [] :: splitOnChar c r
    else
      match splitOnChar c r with
      | [] => [[x]]
      | h :: t => (x :: h) :: t

/-- Body of the converted wildcard pattern (everything except the
end-of-string behaviour of `$`): `re.escape` makes every character literal
except `\*`, which becomes `.*` (any newline-free string — multi-level and
empty gaps included), anchored on both sides.  The catalog's patterns contain
at most one `*`. -/
def hostBodyMatch (p h : List Char) : Bool :=
  match splitOnChar '*' p with
  | [l] => l == h
  | [pre, suf] => prefixAt pre h && suffixGap suf (h.drop pre.length)
  | _ => false

/-- `Fingerprinter._wildcard_to_regex(pat).match(host)`, IGNORECASE.  Python's
`$` (no MULTILINE) matches at the end of the string or just before one
trailing newline, so the compiled `^…$` accepts the body alone or the body
followed by a single final `'\n'`. -/
def hostMatch (pat host : String) : Bool :=
  let p := (strLower pat).data
  let h := (strLower host).data
  hostBodyMatch p h || (h.getLast? == some '\n' && hostBodyMatch p h.dropLast)

/-- A newline-free gap followed by `b` followed by anything (`.*b` inside an
unanchored `re.search`). -/
def gapFind (b : List Char) : List Char → Bool
  | [] => prefixAt b []
  | x :: r => prefixAt b (x :: r) || (x != '\n' && gapFind b r)

/-- Unanchored search for `a` followed by `cont` on the rest (the prefix
before `a` is unconstrained, as in `re.search`). -/
def searchThen (a : List Char) (cont : List Char → Bool) : List Char → Bool
  | [] => a == ([] : List Char) && cont []
  | x :: r => (prefixAt a (x :: r) && cont ((x :: r).drop a.length)) || searchThen a cont r

/-- `compiled_path.search(path)` for the two pattern shapes of the catalog. -/
def pathSearch (p : PathPat) (path : String) : Bool :=
  match p with
  | .lit a => containsSub a.data path.data
  | .gap a b => searchThen a.data (gapFind b.data) path.data

/-- One catalog entry of `_build_rules` (headers lowercased, risk level
computed as in the source). -/
def mkRule (name : String) (domains : List String) (paths : List PathPat)
    (headers : List String) (mt av : String) : FPRule :=
  ⟨name, domains, paths, headers.map strLower, mt, av,
    if name == "AWS Bedrock" || name == "IBM watsonx" then "low" else "medium"⟩

/-- The OpenAI catalog entry (named for reuse in theorems). -/
def openaiRule : FPRule :=
  mkRule "OpenAI" ["api.openai.com"]
    [.lit "/v1/chat/completions", .lit "/v1/completions", .lit "/v1/models"]
    ["OpenAI-Organization"] "chat" "v1"

/-- The full compiled catalog, in declaration order. -/
def fingerprintRules : List FPRule :=
  [openaiRule,
   mkRule "Anthropic" ["api.anthropic.com", "claude.ai"]
     [.lit "/v1/messages", .lit "/v1/complete"] ["Anthropic-Version"] "chat" "v1",
   mkRule "Google Gemini" ["generativelanguage.googleapis.com", "gemini.google.com"]
     [.lit "/v1beta/models", .lit "/v1/models"] ["x-goog-api-client"] "multimodal" "v1beta",
   mkRule "Azure OpenAI" ["*.openai.azure.com"]
     [.gap "/openai/deployments/" "/chat/completions"]
     ["api-key", "x-ms-client-request-id"] "chat" "2023-12-01-preview",
   mkRule "HuggingFace" ["api-inference.huggingface.co", "huggingface.co"]
     [.lit "/models/", .lit "/pipeline/"] ["X-Requested-With"] "inference" "v1",
   mkRule "Replicate" ["api.replicate.com"] [.lit "/v1/predictions"]
     ["Authorization"] "inference" "v1",
   mkRule "Cohere" ["api.cohere.ai"] [.lit "/v1/generate", .lit "/v1/chat"]
     ["Cohere-Version"] "chat" "v1",
   mkRule "Mistral" ["api.mistral.ai"] [.lit "/v1/chat/completions", .lit "/v1/models"]
     ["Mistral-Version"] "chat" "v1",
   mkRule "Perplexity" ["api.perplexity.ai"] [.lit "/chat/completions"]
     ["User-Agent"] "chat" "v1",
   mkRule "AWS Bedrock" ["bedrock-runtime.*.amazonaws.com"] [.gap "/model/" "invoke"]
     ["X-Amz-Target"] "multimodal" "2023-06-01",
   mkRule "IBM watsonx" ["us-south.ml.cloud.ibm.com"] [.lit "/ml/v1/generation"]
     ["Authorization"] "chat" "v1"]

/-- The four signal tests of the per-rule loop of `fingerprint` (host is
lowercased by the caller; `ctx.tls_ja3` is truthy iff present and nonempty). -/
def ruleHits (ctx : RequestContext) (rule : FPRule) : Bool × Bool × Bool × Bool :=
  let host := strLower ctx.host
  let domainHit := rule.domains.any fun d => hostMatch d host
  let pathHit := rule.paths.any fun p => pathSearch p ctx.path
  let headerKeys := ctx.headers.map fun kv => strLower kv.1
  let headerHit := rule.headers.any fun h => headerKeys.contains h
  let tlsHit := (ctx.tls_ja3.getD "") != "" &&
    (rule.service_name == "OpenAI" || rule.service_name == "Anthropic")
  (domainHit, pathHit, headerHit, tlsHit)

/-- Signals list, appended in source order. -/
def ruleSignals (ctx : RequestContext) (rule : FPRule) : List String :=
  let (d, p, h, t) := ruleHits ctx rule
  (if d then ["domain"] else []) ++ (if p then ["path"] else []) ++
  (if h then ["header"] else []) ++ (if t then ["tls-ja3"] else [])

/-- Score of one rule on one context. -/
def ruleScore (ctx : RequestContext) (rule : FPRule) : ℕ :=
  let (d, p, h, t) := ruleHits ctx rule
  scoreOf d p h t

/-- The `matched` list: qualifying rules (`score >= 0.45`) with score and
signals, in catalog order. -/
def qualList (ctx : RequestContext) : List (FPRule × ℕ × List String) :=
  fingerprintRules.filterMap fun rule =>
    if d0_45 ≤ ruleScore ctx rule then some (rule, ruleScore ctx rule, ruleSignals ctx rule)
    else none

/-- `sorted(matched, key=lambda x: x[1], reverse=True)[0]`: the sort is stable
and descending, so the head is the first element attaining the maximal score. -/
def pickFirstMax : List (FPRule × ℕ × List String) → Option (FPRule × ℕ × List String)
  | [] => none
  | x :: xs =>
    match pickFirstMax xs with
    | none => some x
    | some y => some (if x.2.1 < y.2.1 then y else x)

/-- Build the returned `FingerprintResult` from a matched triple. -/
def mkFPResult (x : FPRule × ℕ × List String) : FingerprintResult :=
  ⟨x.1.service_name, x.1.model_type, x.1.api_version, x.1.risk_level, x.2.1, x.2.2⟩

/-- `Fingerprinter.fingerprint`. -/
def fingerprint (ctx : RequestContext) : Option FingerprintResult :=
  (pickFirstMax (qualList ctx)).map mkFPResult

/-! ## Orchestrator (`src/proxy/main.py`) -/

/-- `InterceptedRequest`. -/
structure InterceptedRequest where
  session_id : String
  user_id : String
  host : String
  path : String
  method : String
  headers : List (String × String)
  body : Option String
deriving DecidableEq

/-- `GovernanceEvent` (timestamp as a rational). -/
structure GovernanceEvent where
  session_id : String
  user_id : String
  timestamp : ℚ
  target_service : String
  model : String
  prompt_hash : String
  redaction_applied : Bool
  risk_score : ℚ
  policy_triggered : List String
  action : String
  notes : List String
deriving DecidableEq

/-- The orchestrator's whitelist configuration. -/
def orchestratorWhitelist : List String := ["OpenAI", "Azure OpenAI", "Google Gemini"]

/-- The pure part of `ProxyOrchestrator.handle`: everything up to and
including construction of the `GovernanceEvent` handed to the audit sink.
`digest` stands for `hashlib.sha256(...).hexdigest()`, `now` for
`time.time()` (the `synthetic_event` default), `hv` for Python's `hash` in
the mask branch.  `req.body or ""` maps `None` and `""` to `""`. -/
def buildEvent (digest : String → String) (now : ℚ) (hv : String → ℕ)
    (req : InterceptedRequest) : GovernanceEvent :=
  let ctx : RequestContext := ⟨req.host, req.path, req.method, req.headers, req.body, none, none⟩
  let fpr := fingerprint ctx
  let prompt := req.body.getD ""
  let dlp := analyze (fun _ => []) prompt
  let decision := evaluate orchestratorWhitelist true fpr dlp
  let redaction := redact hv prompt dlp decision.action
  ⟨req.session_id, req.user_id, now,
    (fpr.map fun f => f.service_name).getD "Unknown",
    (fpr.map fun f => f.model_type).getD "unknown",
    ⟨(digest prompt).data.take 12⟩,
    ["redact", "mask", "rewrite"].contains redaction.action,
    max dlp.pii_score dlp.secret_leakage_score,
    decision.policy_matches, decision.action,
    decision.reasons ++ redaction.notes⟩

/-- `ProxyOrchestrator.handle`: build the event, call `self.logger.log(event)`
(the audit sink, a parameter; an exception in it propagates past `handle`
— there is no `try` in the source), then return the event. -/
def handle (digest : String → String) (now : ℚ) (hv : String → ℕ)
    (sink : GovernanceEvent → Except Unit Unit) (req : InterceptedRequest) :
    Except Unit GovernanceEvent :=
  let event := buildEvent digest now hv req
  match sink event with
  | Except.ok _ => Except.ok event
  | Except.error e => Except.error e

/-! ## Claim-side (specification) definitions

`claimedScore` renders the score arithmetic exactly as the specification and
claim C4 state it — exact rational accumulation of `0.5/0.3/0.15/0.05` — to be
compared with the implementation's float accumulation. -/

/-- Rule score as written in the specification (exact arithmetic). -/
def claimedScore (ctx : RequestContext) (rule : FPRule) : ℚ :=
  let (d, p, h, t) := ruleHits ctx rule
  (if d then (0.5 : ℚ) else 0) + (if p then (0.3 : ℚ) else 0) +
  (if h then (0.15 : ℚ) else 0) + (if t then (0.05 : ℚ) else 0)

/-- The action floor of each policy rule id, as tabulated in the
specification (the code realises each floor through its `_bump_action`
call). -/
def RULE_FLOORS : List (String × String) :=
  [("RULE_NO_PII", "redact"), ("RULE_REDACT_SECRETS", "redact"),
   ("RULE_BLOCK_SECRETS", "block"), ("RULE_BLOCK_EXTERNAL", "block"),
   ("RULE_SAFE_MODE_REWRITE", "rewrite")]

/-- Floor lookup ("allow" for ids that are not rule ids). -/
def ruleFloor (r : String) : String := (RULE_FLOORS.lookup r).getD "allow"

/-! ## Helper lemmas -/

/-- Every match emitted by `fiAux` starts at or after the scan position. -/
theorem fiAux_start_le (m : List Char → ℕ → Option ℕ) (s : List Char) :
    ∀ fuel pos x, x ∈ fiAux m s pos fuel → pos ≤ x.1 := by
  intro fuel
  induction fuel with
  | zero => intro pos x hx; simp [fiAux] at hx
  | succ f ih =>
    intro pos x hx
    by_cases hle : pos ≤ s.length
    · rw [fiAux, if_pos hle] at hx
      cases hm : m s pos with
      | some e =>
        rw [hm] at hx
        rcases List.mem_cons.mp hx with h | h
        · subst h; exact le_refl _
        · have := ih (max e (pos + 1)) x h
          exact le_trans (le_trans (Nat.le_succ pos) (le_max_right e (pos + 1))) this
      | none =>
        rw [hm] at hx
        exact le_trans (Nat.le_succ pos) (ih (pos + 1) x hx)
    · rw [fiAux, if_neg hle] at hx
      simp at hx

/-- The matches of one scan are listed with each ending at or before the next
starts. -/
theorem fiAux_pairwise (m : List Char → ℕ → Option ℕ) (s : List Char) :
    ∀ fuel pos, (fiAux m s pos fuel).Pairwise fun a b => a.2 ≤ b.1 := by
  intro fuel
  induction fuel with
  | zero => intro pos; simp [fiAux]
  | succ f ih =>
    intro pos
    by_cases hle : pos ≤ s.length
    · rw [fiAux, if_pos hle]
      cases hm : m s pos with
      | some e =>
        refine List.pairwise_cons.mpr ⟨?_, ih (max e (pos + 1))⟩
        intro x hx
        exact le_trans (le_max_left e (pos + 1)) (fiAux_start_le m s f (max e (pos + 1)) x hx)
      | none => exact ih (pos + 1)
    · rw [fiAux, if_neg hle]; exact List.Pairwise.nil

/-- `finditer` never produces two overlapping matches. -/
theorem finditer_pairwise (m : List Char → ℕ → Option ℕ) (s : List Char) :
    (finditer m s).Pairwise fun a b => a.2 ≤ b.1 :=
  fiAux_pairwise m s (s.length + 1) 0

/-- Segments of a single labelled pattern scan never overlap. -/
theorem regexHits_pairwise (label : String) (m : List Char → ℕ → Option ℕ) (t : String) :
    (regexHits label m t).Pairwise fun a b => a.endPos ≤ b.start ∨ b.endPos ≤ a.start := by
  refine (List.pairwise_map.mpr ?_)
  exact (finditer_pairwise m t.data).imp fun h => Or.inl h

/-- `suffixGap suf s` holds exactly when `s` is a newline-free prefix followed
by the literal `suf`. -/
theorem suffixGap_iff (suf : List Char) :
    ∀ s, suffixGap suf s = true ↔ ∃ g, s = g ++ suf ∧ '\n' ∉ g := by
  intro s
  induction s with
  | nil =>
    constructor
    · intro h
      have : suf = ([] : List Char) := by simpa [suffixGap] using h
      exact ⟨[], by simp [this], by simp⟩
    · rintro ⟨g, hg, -⟩
      have hgnil : g = [] ∧ suf = [] := by
        constructor
        · cases g with
          | nil => rfl
          | cons a as => simp at hg
        · cases g with
          | nil => simpa using hg.symm
          | cons a as => simp at hg
      simp [suffixGap, hgnil.2]
  | cons x r ih =>
    constructor
    · intro h
      have h' : suf = x :: r ∨ (¬ x = '\n' ∧ suffixGap suf r = true) := by
        simpa [suffixGap] using h
      rcases h' with h1 | ⟨hx, hrec⟩
      · exact ⟨[], by simp [h1], by simp⟩
      · rcases (ih).mp hrec with ⟨g, hg, hn⟩
        refine ⟨x :: g, by simp [hg], ?_⟩
        intro hmem
        rcases List.mem_cons.mp hmem with h | h
        · exact hx h.symm
        · exact hn h
    · rintro ⟨g, hg, hn⟩
      cases g with
      | nil =>
        simp at hg
        simp [suffixGap, hg]
      | cons a as =>
        have hx : x = a ∧ r = as ++ suf := by
          constructor
          · exact (List.cons.injEq .. ▸ hg).1
          · exact (List.cons.injEq .. ▸ hg).2
        have hxn : x ≠ '\n' := by
          intro h; exact hn (by simp [← hx.1, h])
        have : suffixGap suf r = true := (ih).mpr ⟨as, hx.2, fun h => hn (by simp [h])⟩
        simp [suffixGap, hxn, this]

/-- `pickFirstMax` returns `none` only on the empty list. -/
theorem pickFirstMax_none_iff (l : List (FPRule × ℕ × List String)) :
    pickFirstMax l = none ↔ l = [] := by
  cases l with
  | nil => simp [pickFirstMax]
  | cons x xs =>
    simp only [pickFirstMax]
    cases pickFirstMax xs <;> simp

/-- `pickFirstMax` returns a member whose score is maximal and which is the
first member attaining that maximum (stable descending sort, head). -/
theorem pickFirstMax_spec :
    ∀ (l : List (FPRule × ℕ × List String)) x, pickFirstMax l = some x →
      x ∈ l ∧ (∀ y ∈ l, y.2.1 ≤ x.2.1) ∧
      ∃ pre suf, l = pre ++ x :: suf ∧ ∀ y ∈ pre, y.2.1 < x.2.1 := by
  intro l
  induction l with
  | nil => intro x hx; simp [pickFirstMax] at hx
  | cons a as ih =>
    intro x hx
    rw [pickFirstMax] at hx
    cases hrec : pickFirstMax as with
    | none =>
      rw [hrec] at hx
      have hnil : as = [] := (pickFirstMax_none_iff as).mp hrec
      have hxa : x = a := by simpa using hx.symm
      subst hxa; subst hnil
      exact ⟨List.mem_singleton.mpr rfl, by simp, [], [], by simp, by simp⟩
    | some y =>
      rw [hrec] at hx
      rcases ih y hrec with ⟨hmem, hmax, pre, suf, hsplit, hpre⟩
      by_cases hlt : a.2.1 < y.2.1
      · have hxy : x = y := by simpa [hlt] using hx.symm
        subst hxy
        refine ⟨List.mem_cons_of_mem a hmem, ?_, a :: pre, suf, by simp [hsplit], ?_⟩
        · intro z hz
          rcases List.mem_cons.mp hz with h | h
          · exact h ▸ le_of_lt hlt
          · exact hmax z h
        · intro z hz
          rcases List.mem_cons.mp hz with h | h
          · exact h ▸ hlt
          · exact hpre z h
      · have hxa : x = a := by simpa [hlt] using hx.symm
        subst hxa
        refine ⟨List.mem_cons_self _ _, ?_, [], as, by simp, by simp⟩
        intro z hz
        rcases List.mem_cons.mp hz with h | h
        · exact h ▸ le_refl _
        · exact le_trans (hmax z h) (Nat.le_of_not_lt hlt)

/-- `round2` maps `[0, q]`-bounded nonnegative rationals into `[0, 1]`. -/
theorem round2_nonneg {q : ℚ} (h : 0 ≤ q) : 0 ≤ round2 q := by
  have h1 : (0 : ℚ) ≤ q * 100 + 1 / 2 := by positivity
  have h2 : (0 : ℤ) ≤ ⌊q * 100 + 1 / 2⌋ := Int.le_floor.mpr (by exact_mod_cast h1)
  unfold round2
  positivity

/-- `round2` does not exceed 1 on inputs at most 1. -/
theorem round2_le_one {q : ℚ} (h : q ≤ 1) : round2 q ≤ 1 := by
  have h1 : q * 100 + 1 / 2 ≤ (201 : ℚ) / 2 := by linarith
  have h4 : ⌊(201 : ℚ) / 2⌋ = 100 := by
    rw [Int.floor_eq_iff]
    norm_num
  have h3 : (⌊q * 100 + 1 / 2⌋ : ℤ) ≤ 100 := h4 ▸ Int.floor_le_floor h1
  rw [round2, div_le_one (by norm_num)]
  exact_mod_cast h3

/-! ## Claim theorems -/

/-- C1 (amended): in redact mode the outcome's action label is always
"redact", and `blocked` is set exactly when `piiScore ≥ 0.8` OR
`secretScore ≥ 0.8` — the source combines the two thresholds with `or`, not
with the conjunction stated by the specification. -/
theorem redact_mode_blocked_iff_disjunction (hv : String → ℕ) (prompt : String)
    (dlp : DLPResult) :
    (redact hv prompt dlp "redact").action = "redact" ∧
    ((redact hv prompt dlp "redact").blocked = true ↔
      (0.8 : ℚ) ≤ dlp.pii_score ∨ (0.8 : ℚ) ≤ dlp.secret_leakage_score) := by
  constructor
  · rfl
  · show (decide ((0.8 : ℚ) ≤ dlp.pii_score) ||
        decide ((0.8 : ℚ) ≤ dlp.secret_leakage_score)) = true ↔ _
    simp

/-- C1 (witness): a result with `piiScore = 1` is blocked. -/
theorem redact_mode_blocked_iff_disjunction_witness :
    (redact (fun _ => 0) "" ⟨1, 0, [], none⟩ "redact").blocked = true :=
  (redact_mode_blocked_iff_disjunction (fun _ => 0) "" ⟨1, 0, [], none⟩).2.mpr
    (Or.inl (by norm_num))

/-- C1 (counterexample): with `piiScore = 1` and `secretScore = 0` the
conjunction `piiScore ≥ 0.8 ∧ secretScore ≥ 0.8` fails, yet the redact-mode
outcome is marked `blocked = true` (with action "redact"), refuting the claim
that `blocked` is set exactly when both scores reach 0.8. -/
theorem redact_mode_blocked_by_pii_alone :
    (redact (fun _ => 0) "" ⟨1, 0, [], none⟩ "redact").blocked = true ∧
    (redact (fun _ => 0) "" ⟨1, 0, [], none⟩ "redact").action = "redact" ∧
    ¬ ((0.8 : ℚ) ≤ (DLPResult.mk 1 0 [] none).pii_score ∧
       (0.8 : ℚ) ≤ (DLPResult.mk 1 0 [] none).secret_leakage_score) := by
  refine ⟨by with_unfolding_all decide, rfl, ?_⟩
  intro h
  have := h.2
  norm_num at this

/-- C10: the mask-mode and rewrite-mode transforms always return an
unblocked outcome with a present transformed text, whatever the scores are. -/
theorem transform_mask_rewrite_never_blocked (hv : String → ℕ) (prompt : String)
    (dlp : DLPResult) :
    (redact hv prompt dlp "mask").blocked = false ∧
    ((redact hv prompt dlp "mask").redacted_text).isSome = true ∧
    (redact hv prompt dlp "rewrite").blocked = false ∧
    ((redact hv prompt dlp "rewrite").redacted_text).isSome = true :=
  ⟨rfl, rfl, rfl, rfl⟩

/-- C2 (amended): the governance event — including the enforcement action —
is computed before and independently of the audit sink; when the sink append
succeeds the event is returned, and when the sink append raises, the failure
propagates to the caller (the event is not returned), without altering the
event that was handed to the sink. -/
theorem handle_sink_decoupled (digest : String → String) (now : ℚ) (hv : String → ℕ)
    (sink : GovernanceEvent → Except Unit Unit) (req : InterceptedRequest) :
    (sink (buildEvent digest now hv req) = Except.ok () →
      handle digest now hv sink req = Except.ok (buildEvent digest now hv req)) ∧
    (sink (buildEvent digest now hv req) = Except.error () →
      handle digest now hv sink req = Except.error ()) := by
  constructor <;> intro h <;> simp [handle, h]

/-- C2 (witness): with a sink that always succeeds, `handle` returns exactly
the built event. -/
theorem handle_sink_decoupled_witness :
    handle (fun _ => "") 0 (fun _ => 0) (fun _ => Except.ok ())
        ⟨"s", "u", "h", "p", "GET", [], none⟩ =
      Except.ok (buildEvent (fun _ => "") 0 (fun _ => 0) ⟨"s", "u", "h", "p", "GET", [], none⟩) :=
  (handle_sink_decoupled (fun _ => "") 0 (fun _ => 0) (fun _ => Except.ok ())
    ⟨"s", "u", "h", "p", "GET", [], none⟩).1 rfl

/-- C2 (counterexample): when the sink append fails, `handle` propagates the
failure and returns no event at all — refuting "returns the constructed
GovernanceEvent to the caller regardless of the audit sink's outcome". -/
theorem handle_sink_failure_propagates :
    handle (fun _ => "") 0 (fun _ => 0) (fun _ => Except.error ())
      ⟨"s", "u", "h", "p", "GET", [], none⟩ = Except.error () := rfl

/-- C9 (amended): when none of the five rule conditions holds, `evaluate`
returns action "allow", the single reason "No policies triggered" (note the
exact string: not the specification's "no policy triggered"), no matched rule
ids and no parameters. -/
theorem evaluate_no_trigger_spec (wl : List String) (enforce : Bool)
    (fp : Option FingerprintResult) (dlp : DLPResult)
    (h1 : ¬ (0.2 : ℚ) ≤ dlp.pii_score) (h2 : ¬ (0.2 : ℚ) ≤ dlp.secret_leakage_score)
    (h3 : ¬ (0.4 : ℚ) ≤ dlp.secret_leakage_score) (h4 : extCond wl enforce fp = false)
    (h5 : jailCond dlp = false) :
    evaluate wl enforce fp dlp = ⟨"allow", ["No policies triggered"], [], []⟩ := by
  simp [evaluate, h1, h2, h3, h4, h5]

/-- C9 (witness): the all-zero scan result triggers nothing. -/
theorem evaluate_no_trigger_spec_witness :
    evaluate [] false none ⟨0, 0, [], none⟩ = ⟨"allow", ["No policies triggered"], [], []⟩ :=
  evaluate_no_trigger_spec [] false none ⟨0, 0, [], none⟩ (by norm_num) (by norm_num)
    (by norm_num) rfl rfl

/-- C9 (counterexample): the no-trigger reason produced by the code is the
string "No policies triggered", not the claimed "no policy triggered". -/
theorem evaluate_no_trigger_reason_string :
    (evaluate [] false none ⟨0, 0, [], none⟩).reasons = ["No policies triggered"] ∧
    (evaluate [] false none ⟨0, 0, [], none⟩).reasons ≠ ["no policy triggered"] := by
  with_unfolding_all decide

/-- C6 (amended): the converted wildcard pattern matches exactly the hosts
whose lowercase form is any newline-free expansion of the star followed by
the literal suffix, optionally followed by one trailing newline (Python's
`$` also matches just before a final newline) — single-level subdomains are
included, but so are multi-level expansions and the empty expansion, because
`_wildcard_to_regex` turns `*` into `.*`. -/
theorem azure_wildcard_characterization (h : String) :
    hostMatch "*.openai.azure.com" h = true ↔
      ∃ g : List Char, '\n' ∉ g ∧
        ((strLower h).data = g ++ ".openai.azure.com".data ∨
         (strLower h).data = g ++ ".openai.azure.com".data ++ ['\n']) := by
  have e1 : hostMatch "*.openai.azure.com" h =
      (suffixGap ".openai.azure.com".data (strLower h).data ||
        ((strLower h).data.getLast? == some '\n' &&
          suffixGap ".openai.azure.com".data (strLower h).data.dropLast)) := by
    with_unfolding_all rfl
  rw [e1]
  constructor
  · intro hb
    rcases Bool.or_eq_true _ _ |>.mp hb with h1 | h2
    · rcases (suffixGap_iff _ _).mp h1 with ⟨g, hg, hn⟩
      exact ⟨g, hn, Or.inl hg⟩
    · rcases Bool.and_eq_true _ _ |>.mp h2 with ⟨hlast, hrest⟩
      rcases (suffixGap_iff _ _).mp hrest with ⟨g, hg, hn⟩
      refine ⟨g, hn, Or.inr ?_⟩
      have hl : (strLower h).data.getLast? = some '\n' := by simpa using hlast
      have hne : (strLower h).data ≠ [] := by
        intro h0
        rw [h0] at hl
        simp at hl
      have hsplit : (strLower h).data.dropLast ++ [(strLower h).data.getLast hne] =
          (strLower h).data := List.dropLast_append_getLast hne
      have hlv : (strLower h).data.getLast hne = '\n' := by
        have := List.getLast?_eq_getLast (strLower h).data hne
        rw [this] at hl
        exact Option.some.inj hl
      rw [← hsplit, hlv, hg, List.append_assoc]
  · rintro ⟨g, hn, hg | hg⟩
    · exact Bool.or_eq_true _ _ |>.mpr (Or.inl ((suffixGap_iff _ _).mpr ⟨g, hg, hn⟩))
    · refine Bool.or_eq_true _ _ |>.mpr (Or.inr (Bool.and_eq_true _ _ |>.mpr ⟨?_, ?_⟩))
      · rw [hg, List.getLast?_concat]
        exact beq_self_eq_true _
      · have hd : (strLower h).data.dropLast = g ++ ".openai.azure.com".data := by
          rw [hg]
          simp
        rw [hd]
        exact (suffixGap_iff _ _).mpr ⟨g, rfl, hn⟩

/-- C6 (witness): the single-level expansion "a.openai.azure.com" matches. -/
theorem azure_wildcard_characterization_witness :
    hostMatch "*.openai.azure.com" "a.openai.azure.com" = true :=
  (azure_wildcard_characterization "a.openai.azure.com").mpr
    ⟨['a'], by decide, Or.inl (by with_unfolding_all decide)⟩

/-- C6 (counterexample): the multi-level expansion "a.b.openai.azure.com"
also matches the catalog's wildcard pattern, refuting "does not match
multi-level expansions". -/
theorem azure_wildcard_matches_multilevel :
    hostMatch "*.openai.azure.com" "a.b.openai.azure.com" = true ∧
    (fingerprintRules.any fun r => r.domains.contains "*.openai.azure.com") = true := by
  with_unfolding_all decide

/-- C7: the redaction-token table is keyed by the category names
"pii"/"secret", but `_basic_redact` looks tokens up by the segment's label
("email", "api_key", …), so a PII-class segment and a secret-class segment
both fall back to the same generic marker "[REDACTED]" — only "high_entropy"
segments receive a distinct marker.  On the prompt below (one email match, one
api_key match) both substitutions use the identical marker, contradicting the
documented intent of distinct PII/secret markers encoded in
`REDACTION_TOKENS`. -/
theorem redactor_label_lookup_collapse :
    tokenFor "email" = "[REDACTED]" ∧ tokenFor "api_key" = "[REDACTED]" ∧
    REDACTION_TOKENS.lookup "pii" = some "[REDACTED—PII]" ∧
    REDACTION_TOKENS.lookup "email" = none ∧
    (redact (fun _ => 0) "a@b.co key: abcdefabcdef"
        (analyze (fun _ => []) "a@b.co key: abcdefabcdef") "redact").redacted_text =
      some "[REDACTED] [REDACTED]" :=
  ⟨by decide, by decide, by decide, by decide, by decide⟩

/-- C8 (amended): within each single catalog pattern, the scanner's matches
are pairwise non-overlapping (a consequence of `re.finditer` resuming after
each match); the counterexample below shows this fails across patterns. -/
theorem scanner_per_pattern_no_overlap (t : String) :
    ((regexHits "email" matchEmailAt t).Pairwise fun a b =>
      a.endPos ≤ b.start ∨ b.endPos ≤ a.start) ∧
    ((regexHits "phone" matchPhoneAt t).Pairwise fun a b =>
      a.endPos ≤ b.start ∨ b.endPos ≤ a.start) ∧
    ((regexHits "medicare" matchMedicareAt t).Pairwise fun a b =>
      a.endPos ≤ b.start ∨ b.endPos ≤ a.start) ∧
    ((regexHits "tfn" matchTfnAt t).Pairwise fun a b =>
      a.endPos ≤ b.start ∨ b.endPos ≤ a.start) ∧
    ((regexHits "api_key" matchApiKeyAt t).Pairwise fun a b =>
      a.endPos ≤ b.start ∨ b.endPos ≤ a.start) ∧
    ((regexHits "jwt" matchJwtAt t).Pairwise fun a b =>
      a.endPos ≤ b.start ∨ b.endPos ≤ a.start) :=
  ⟨regexHits_pairwise _ _ t, regexHits_pairwise _ _ t, regexHits_pairwise _ _ t,
   regexHits_pairwise _ _ t, regexHits_pairwise _ _ t, regexHits_pairwise _ _ t⟩

/-- C8 (counterexample): on the text "123456789012" the scanner emits a phone
segment and a medicare segment with the identical span [0, 12): two distinct
segments of the same scan overlap, refuting the claimed invariant. -/
theorem analyze_overlapping_segments :
    (analyze (fun _ => []) "123456789012").sensitive_segments =
      [⟨"phone", "123456789012", 0, 12⟩, ⟨"medicare", "123456789012", 0, 12⟩] ∧
    ¬ ((analyze (fun _ => []) "123456789012").sensitive_segments.Pairwise
        fun a b => a.endPos ≤ b.start ∨ b.endPos ≤ a.start) := by
  with_unfolding_all decide

/-- C3: the action returned by `evaluate` is the fold of `_bump_action`
(the severity maximum) over the floors of exactly the triggered rules; it is
never below any triggered rule's floor; it is "allow" or one of the triggered
floors; and whenever RULE_BLOCK_SECRETS and RULE_SAFE_MODE_REWRITE both
trigger, the final action is "block". -/
theorem evaluate_action_is_max_floor (wl : List String) (enforce : Bool)
    (fp : Option FingerprintResult) (dlp : DLPResult) :
    (evaluate wl enforce fp dlp).action =
      ((evaluate wl enforce fp dlp).policy_matches.map ruleFloor).foldl bumpAction "allow" ∧
    (∀ r ∈ (evaluate wl enforce fp dlp).policy_matches,
      sevIdx (ruleFloor r) ≤ sevIdx (evaluate wl enforce fp dlp).action) ∧
    ((evaluate wl enforce fp dlp).action = "allow" ∨
      (evaluate wl enforce fp dlp).action ∈
        (evaluate wl enforce fp dlp).policy_matches.map ruleFloor) ∧
    ("RULE_BLOCK_SECRETS" ∈ (evaluate wl enforce fp dlp).policy_matches →
      "RULE_SAFE_MODE_REWRITE" ∈ (evaluate wl enforce fp dlp).policy_matches →
      (evaluate wl enforce fp dlp).action = "block") := by
  by_cases h1 : (0.2 : ℚ) ≤ dlp.pii_score <;>
    by_cases h2 : (0.2 : ℚ) ≤ dlp.secret_leakage_score <;>
    by_cases h3 : (0.4 : ℚ) ≤ dlp.secret_leakage_score <;>
    by_cases h4 : extCond wl enforce fp = true <;>
    by_cases h5 : jailCond dlp = true <;>
    simp only [evaluate, h1, h2, h3, h4, h5, Bool.not_eq_true] at * <;>
    simp [h4, h5] <;> decide

/-- C3 (witness): with secret score 0.5 and a jailbreak phrase, both
RULE_BLOCK_SECRETS and RULE_SAFE_MODE_REWRITE trigger and the action is
"block". -/
theorem evaluate_action_is_max_floor_witness :
    (evaluate [] false none ⟨0, mkRat 1 2, [], some "ignore previous instructions"⟩).action =
      "block" :=
  (evaluate_action_is_max_floor [] false none
      ⟨0, mkRat 1 2, [], some "ignore previous instructions"⟩).2.2.2
    (by with_unfolding_all decide) (by with_unfolding_all decide)

/-- C4 (amended): a rule qualifies exactly when its IEEE-double score reaches
the double 0.45, which (first conjunct, by exhaustion of the 16 signal
combinations) happens exactly for a host match, or for path+header+transport
together — path+header alone accumulates the double 0.44999999999999996 and
does not qualify, unlike in exact arithmetic.  `fingerprint` returns absent
exactly when no rule qualifies, and otherwise returns the qualifying rule of
maximal score, the earliest in catalog order among ties. -/
theorem fingerprint_qualification_and_selection :
    (∀ d p h t : Bool, d0_45 ≤ scoreOf d p h t ↔
      (d = true ∨ (p = true ∧ h = true ∧ t = true))) ∧
    (∀ ctx : RequestContext, fingerprint ctx = none ↔ qualList ctx = []) ∧
    (∀ ctx x, pickFirstMax (qualList ctx) = some x →
      fingerprint ctx = some (mkFPResult x) ∧ x ∈ qualList ctx ∧
      (∀ y ∈ qualList ctx, y.2.1 ≤ x.2.1) ∧
      ∃ pre suf, qualList ctx = pre ++ x :: suf ∧ ∀ y ∈ pre, y.2.1 < x.2.1) := by
  refine ⟨by decide, ?_, ?_⟩
  · intro ctx
    rw [fingerprint, Option.map_eq_none']
    exact pickFirstMax_none_iff (qualList ctx)
  · intro ctx x hx
    refine ⟨?_, pickFirstMax_spec (qualList ctx) x hx⟩
    rw [fingerprint, hx, Option.map_some']

/-- C4 (witness): a full OpenAI match (host, path, header) qualifies and is
returned. -/
theorem fingerprint_qualification_and_selection_witness :
    fingerprint ⟨"api.openai.com", "/v1/chat/completions", "POST",
        [("OpenAI-Organization", "demo")], none, none, none⟩ =
      some (mkFPResult (openaiRule, 68454714336031544, ["domain", "path", "header"])) :=
  ((fingerprint_qualification_and_selection).2.2
    ⟨"api.openai.com", "/v1/chat/completions", "POST",
      [("OpenAI-Organization", "demo")], none, none, none⟩
    (openaiRule, 68454714336031544, ["domain", "path", "header"]) (by decide)).1

/-- C4 (counterexample): a context whose path matches OpenAI's catalog paths
and which carries OpenAI's required header (but matches no host) accumulates
exactly 0.45 under the claim's arithmetic — so by the claim the rule
qualifies and must be returned — yet the implementation's float accumulation
stays below its 0.45 threshold and `fingerprint` returns absent. -/
theorem fingerprint_path_header_not_qualifying :
    claimedScore ⟨"nohost.example", "/v1/chat/completions", "POST",
        [("OpenAI-Organization", "demo")], none, none, none⟩ openaiRule = 9 / 20 ∧
    ((9 : ℚ) / 20 < 45 / 100 ↔ False) ∧
    fingerprint ⟨"nohost.example", "/v1/chat/completions", "POST",
        [("OpenAI-Organization", "demo")], none, none, none⟩ = none := by
  refine ⟨by with_unfolding_all decide, by norm_num, by decide⟩

set_option maxHeartbeats 1600000 in
/-- C5: the scanner's scores follow the stated formulas — piiScore is
`round2 (min 1 (0.2 · |PII-class segments|))` and secretScore is
`round2 (min 1 (0.25 · |secret-class segments| + 0.3 if any high_entropy))` —
both scores always lie in [0, 1], and exactly one secret-class segment with
no high-entropy segment yields secretScore 0.25. -/
theorem analyze_scores_spec (spacy : String → List SensitiveSegment) (t : String) :
    (analyze spacy t).pii_score =
      round2 (min 1 ((((analyze spacy t).sensitive_segments.filter isPiiHit).length : ℚ)
        * 0.2)) ∧
    (analyze spacy t).secret_leakage_score =
      round2 (min 1 ((((analyze spacy t).sensitive_segments.filter isSecretHit).length : ℚ)
        * 0.25 +
        if ((analyze spacy t).sensitive_segments.filter isSecretHit).any
            (fun h => h.label == "high_entropy") then (0.3 : ℚ) else 0)) ∧
    (0 ≤ (analyze spacy t).pii_score ∧ (analyze spacy t).pii_score ≤ 1) ∧
    (0 ≤ (analyze spacy t).secret_leakage_score ∧
      (analyze spacy t).secret_leakage_score ≤ 1) ∧
    ((((analyze spacy t).sensitive_segments.filter isSecretHit).length = 1 ∧
      ((analyze spacy t).sensitive_segments.filter isSecretHit).any
          (fun h => h.label == "high_entropy") = false) →
      (analyze spacy t).secret_leakage_score = 0.25) := by
  have hpii : (analyze spacy t).pii_score =
      round2 (min 1 ((((analyze spacy t).sensitive_segments.filter isPiiHit).length : ℚ)
        * 0.2)) := rfl
  have hsec : (analyze spacy t).secret_leakage_score =
      round2 (min 1 ((((analyze spacy t).sensitive_segments.filter isSecretHit).length : ℚ)
        * 0.25 +
        if ((analyze spacy t).sensitive_segments.filter isSecretHit).any
            (fun h => h.label == "high_entropy") then (0.3 : ℚ) else 0)) := rfl
  have hite : (0 : ℚ) ≤
      if ((analyze spacy t).sensitive_segments.filter isSecretHit).any
          (fun h => h.label == "high_entropy") then (0.3 : ℚ) else 0 := by
    split_ifs <;> norm_num
  refine ⟨hpii, hsec, ⟨?_, ?_⟩, ⟨?_, ?_⟩, ?_⟩
  · rw [hpii]; exact round2_nonneg (le_min (by norm_num) (by positivity))
  · rw [hpii]; exact round2_le_one (min_le_left _ _)
  · rw [hsec]
    exact round2_nonneg (le_min (by norm_num) (add_nonneg (by positivity) hite))
  · rw [hsec]; exact round2_le_one (min_le_left _ _)
  · rintro ⟨hl, ha⟩
    rw [hsec, hl, ha]
    norm_num [min_def, round2]

/-- C5 (witness): a prompt with exactly one api_key match and no high-entropy
token scores secretScore 0.25. -/
theorem analyze_scores_spec_witness :
    (analyze (fun _ => []) "key: abcdefabcdef").secret_leakage_score = 0.25 :=
  (analyze_scores_spec (fun _ => []) "key: abcdefabcdef").2.2.2.2 (by decide)
